import Mathlib

/-!
Shallow embedding of the tuios frame compositor and sidebar subsystem
(`internal/app/render.go`, `internal/app/render_sidebar.go`), with theorems
checking the natural-language specification's claims against the code.
-/

set_option linter.all false

namespace Tuios

/-- A positioned, z-ordered, identified layer (`lipgloss.Layer`).
Rendered text content is abstracted as a `Nat` token: the claims under
study concern which layer is emitted and its geometry, not glyphs. -/
structure Layer where
  content : Nat
  x : Int
  y : Int
  z : Int
  id : String
  deriving DecidableEq, Repr

/-- An animation entry: in Go it references a `*Window`; windows here are
identified by their stable string ID. -/
structure Animation where
  windowId : String
  complete : Bool
  deriving DecidableEq, Repr

/-- UI mode (`m.Mode`): terminal-input mode or window-management mode. -/
inductive Mode where
  | terminalMode
  | windowMode
  deriving DecidableEq, Repr

/-- A window, with the fields of `app.Window` that the compositor and
sidebar read or write.  `terminal` is `some scrollbackLen` when the window
has a terminal attached (`w.Terminal != nil`), abstracting the external
emulator to the single value the compositor reads from it. -/
structure Window where
  id : String
  x : Int
  y : Int
  width : Int
  height : Int
  z : Int
  workspace : Int
  minimized : Bool
  dirty : Bool
  contentDirty : Bool
  positionDirty : Bool
  isBeingManipulated : Bool
  isAltScreen : Bool
  cachedLayer : Option Layer
  scrollbackOffset : Int
  terminal : Option Int
  customName : String
  title : String
  deriving DecidableEq, Repr

/-- Top-level OS state: the fields of `app.OS` read by the code under
study.  `topMargin`, `renderWidth`, `usableHeight`, `renderHeight` model
the accessors `GetTopMargin`, `GetRenderWidth`, `GetUsableHeight`,
`GetRenderHeight` (defined outside the two source files) as state inputs;
`dockbarPosition` and `dockHeight` model the `config` package globals
`config.DockbarPosition` and `config.DockHeight`. -/
structure OS where
  windows : List Window
  currentWorkspace : Int
  focusedWindow : Int
  mode : Mode
  animations : List Animation
  topMargin : Int
  renderWidth : Int
  usableHeight : Int
  renderHeight : Int
  sidebarVisible : Bool
  sidebarFocused : Bool
  sidebarSelectedIndex : Int
  renamingWindow : Bool
  autoTiling : Bool
  dockbarPosition : String
  dockHeight : Int
  deriving DecidableEq, Repr

/-! ## Sidebar width (`GetSidebarWidth`, render_sidebar.go:39-48) -/

/-- `SidebarMinWidth` (render_sidebar.go:16). -/
def SidebarMinWidth : Int := 25

/-- `SidebarMaxWidth` (render_sidebar.go:19). -/
def SidebarMaxWidth : Int := 50

/-- `ZIndexSidebar` (render_sidebar.go:22). -/
def ZIndexSidebar : Int := 1003

/-- `SidebarHoverZoneWidth` (render_sidebar.go:430). -/
def SidebarHoverZoneWidth : Int := 5

/-- The IEEE-754 double nearest to the Go literal `0.20` is
`floatPointTwoNum / 2 ^ floatPointTwoDen`: 0.20 is not a binary fraction,
and Go's `SidebarWidthPercent = 0.20` denotes this rounded value. -/
def floatPointTwoNum : Nat := 3602879701896397

def floatPointTwoDen : Nat := 54

/-- Number of bits of `n`, with explicit fuel so that the kernel can
evaluate it (`fuel ≥ n` suffices). -/
def bitLenAux : Nat → Nat → Nat
  | 0, _ => 0
  | fuel + 1, n => if n = 0 then 0 else bitLenAux fuel (n / 2) + 1

/-- Number of bits of `n` (0 for 0). -/
def bitLen (n : Nat) : Nat := bitLenAux n n

/-- Model of Go's `int(float64(n) * 0.20)` for a natural `n`:
`float64(n)` is exact for `n < 2^53` (any realistic terminal width), the
product is rounded to the nearest `float64` (round-to-nearest,
ties-to-even, 53-bit significand), and `int(...)` truncates toward zero
(floor, as the value is nonnegative).  Computed exactly over `Nat`. -/
def truncMulPointTwo (n : Nat) : Nat :=
  let p := n * floatPointTwoNum
  if p = 0 then 0
  else
    let k := bitLen p
    if k ≤ 53 then p / 2 ^ floatPointTwoDen
    else
      let s := k - 53
      let q := p / 2 ^ s
      let r := p % 2 ^ s
      let half := 2 ^ (s - 1)
      let q2 := if half < r ∨ (r = half ∧ q % 2 = 1) then q + 1 else q
      q2 * 2 ^ s / 2 ^ floatPointTwoDen

/-- Go's `int(float64(w) * 0.20)` for an `int` argument: truncation
toward zero, symmetric in sign. -/
def intOfFloatMulPointTwo (w : Int) : Int :=
  if 0 ≤ w then (truncMulPointTwo w.toNat : Int)
  else -(truncMulPointTwo (-w).toNat : Int)

/-- `GetSidebarWidth` (render_sidebar.go:39-48): 20% of the render width
(via float64 arithmetic, truncated), clamped to
`[SidebarMinWidth, SidebarMaxWidth]`. -/
def GetSidebarWidth (m : OS) : Int :=
  let width := intOfFloatMulPointTwo m.renderWidth
  let width := if width < SidebarMinWidth then SidebarMinWidth else width
  let width := if width > SidebarMaxWidth then SidebarMaxWidth else width
  width

/-! ## The compositor's per-window loop (`GetCanvas`, render.go:32-131)

`GetCanvas` delegates the actual text rendering to collaborators defined
outside the two files under study (`renderTerminal`, `addToBorder`,
`clipWindowContent`, `pool`, `config.ZIndexAnimating`); the embedding of
the loop is parameterized over them (`renderBox`, `clip`, `zAnim`), and
every theorem below quantifies over these parameters. -/

/-- The `isAnimating` computation (render.go:39-48): Go compares
`anim.Window == m.Windows[i]` by pointer; windows are identified here by
their stable string ID. -/
def isAnimatingB (m : OS) (w : Window) : Bool :=
  if m.animations.length > 0 then
    m.animations.any (fun a => a.windowId == w.id && !a.complete)
  else false

/-- The `isVisible` computation (render.go:59-62): the window's bounding
box intersects the viewport expanded by `margin` on every side. -/
def isVisibleB (m : OS) (w : Window) (margin : Int) : Bool :=
  decide (w.x + w.width ≥ -margin) && decide (w.x ≤ m.renderWidth + margin) &&
  decide (w.y + w.height ≥ -margin) &&
  decide (w.y ≤ m.usableHeight + m.topMargin + margin)

/-- The `isFullyVisible` computation (render.go:68-70). -/
def isFullyVisibleB (m : OS) (w : Window) : Bool :=
  decide (w.x ≥ 0) && decide (w.y ≥ m.topMargin) &&
  decide (w.x + w.width ≤ m.renderWidth) &&
  decide (w.y + w.height ≤ m.usableHeight + m.topMargin)

/-- The `isFocused` computation (render.go:72) for the window at list
index `i`. -/
def isFocusedB (m : OS) (i : Nat) : Bool :=
  m.focusedWindow == (i : Int) && decide (m.focusedWindow ≥ 0) &&
  decide (m.focusedWindow < (m.windows.length : Int))

/-- The `needsRedraw` computation (render.go:89-93); Go's `||`
short-circuits, so the cached layer is dereferenced only when non-nil. -/
def needsRedrawB (w : Window) : Bool :=
  match w.cachedLayer with
  | none => true
  | some l =>
      w.dirty || w.contentDirty || w.positionDirty ||
      l.x != w.x || l.y != w.y || l.z != w.z

/-- Modelled from the spec: `Window.ClearDirtyFlags` (defined outside the
two source files) clears all three dirty flags
(spec §4.1: "clear all three dirty flags"). -/
def clearDirtyFlags (w : Window) : Window :=
  { w with dirty := false, contentDirty := false, positionDirty := false }

/-- One iteration of `GetCanvas`'s window loop (render.go:32-131) for the
window `w` at index `i`: returns the layer emitted for this window
(`none` when the window is skipped) and the window's state after the
iteration.

Parameters standing for collaborators outside the two source files:
`renderBox m i w f` abstracts `addToBorder(box...Render(m.renderTerminal
window f (m.Mode == TerminalMode)), ...)` — the fully composed bordered
box content; `clip` abstracts `clipWindowContent`; `zAnim` abstracts
`config.ZIndexAnimating`. -/
def windowStep (renderBox : OS → Nat → Window → Bool → Nat)
    (clip : Nat → Int → Int → Int → Int → Nat × Int × Int)
    (zAnim : Int) (m : OS) (i : Nat) (w : Window) : Option Layer × Window :=
  if w.workspace != m.currentWorkspace then (none, w)
  else
    let isAnimating := isAnimatingB m w
    if w.minimized && !isAnimating then (none, w)
    else
      let margin : Int := if isAnimating then 20 else 5
      if !isVisibleB m w margin then (none, w)
      else
        let isFullyVisible := isFullyVisibleB m w
        let isFocused := isFocusedB m i
        if w.cachedLayer.isSome && !w.dirty && !w.contentDirty && !w.positionDirty then
          (w.cachedLayer, w)
        else if !needsRedrawB w ||
            (!isFocused && !isFullyVisible && !w.contentDirty &&
             !w.isBeingManipulated && w.cachedLayer.isSome) then
          (w.cachedLayer, w)
        else
          let boxContent := renderBox m i w isFocused
          let zIndex := if isAnimating then zAnim else w.z
          let clipped := clip boxContent w.x w.y m.renderWidth (m.usableHeight + m.topMargin)
          let newLayer : Layer :=
            { content := clipped.1, x := clipped.2.1, y := clipped.2.2,
              z := zIndex, id := w.id }
          (some newLayer, clearDirtyFlags { w with cachedLayer := some newLayer })

/-- The window loop of `GetCanvas` starting at index `i`: one
`(emitted layer, updated window)` pair per window. -/
def getCanvasWindowsFrom (renderBox : OS → Nat → Window → Bool → Nat)
    (clip : Nat → Int → Int → Int → Int → Nat × Int × Int)
    (zAnim : Int) (m : OS) : Nat → List Window → List (Option Layer × Window)
  | _, [] => []
  | i, w :: ws =>
      windowStep renderBox clip zAnim m i w ::
        getCanvasWindowsFrom renderBox clip zAnim m (i + 1) ws

/-- The full window loop of `GetCanvas` (render.go:32-131) over
`m.windows`. -/
def GetCanvasWindows (renderBox : OS → Nat → Window → Bool → Nat)
    (clip : Nat → Int → Int → Int → Int → Nat × Int × Int)
    (zAnim : Int) (m : OS) : List (Option Layer × Window) :=
  getCanvasWindowsFrom renderBox clip zAnim m 0 m.windows

/-- The window layers `GetCanvas` appends to its layer buffer, in list
order: skipped windows contribute nothing. -/
def getCanvasWindowLayers (renderBox : OS → Nat → Window → Bool → Nat)
    (clip : Nat → Int → Int → Int → Int → Nat × Int × Int)
    (zAnim : Int) (m : OS) : List Layer :=
  (GetCanvasWindows renderBox clip zAnim m).filterMap Prod.fst

/-! ## Sidebar layout (`CalculateSidebarLayout`, render_sidebar.go:52-102)
and hit test (`FindSidebarItemClicked`, render_sidebar.go:372-427)

Both Go functions build `workspaceWindows` (a map from workspace ID to
the window indices in list order) and then visit the workspaces in
ascending order via `sort.Ints`; the map's random iteration order is
erased by the sort, so the traversal is the sorted list of distinct
workspace IDs. -/

/-- A sidebar item's clickable region (`SidebarItemPosition`,
render_sidebar.go:25-29). -/
structure SidebarItemPosition where
  windowIndex : Nat
  startY : Int
  endY : Int
  deriving DecidableEq, Repr

/-- Calculated sidebar layout (`SidebarLayout`, render_sidebar.go:32-36);
the Go `map[int]int` field `WorkspaceY` is modelled as an association
list in the traversal order (one entry per workspace, keys distinct). -/
structure SidebarLayout where
  width : Int
  itemPositions : List SidebarItemPosition
  workspaceY : List (Int × Int)
  deriving DecidableEq, Repr

/-- `workspaceWindows[k]`: the indices (from position `i` on) of the
windows whose workspace is `k`, in list order — Go appends `i` on the
single pass `for i, w := range m.Windows`. -/
def indicesFrom (k : Int) : Nat → List Window → List Nat
  | _, [] => []
  | i, w :: ws =>
      if w.workspace = k then i :: indicesFrom k (i + 1) ws
      else indicesFrom k (i + 1) ws

/-- The window indices of workspace `k`, in original list order. -/
def indicesIn (l : List Window) (k : Int) : List Nat :=
  indicesFrom k 0 l

/-- The keys of `workspaceWindows` after `sort.Ints`: the distinct
workspace IDs, ascending. -/
def sortedWorkspaces (l : List Window) : List Int :=
  ((l.map Window.workspace).dedup).insertionSort (· ≤ ·)

/-- The inner item loop of `CalculateSidebarLayout`
(render_sidebar.go:86-93): each index becomes an item occupying one line
(`StartY = currentY`, `EndY = currentY + 1`); returns the items and the
final `currentY`. -/
def itemsFor : List Nat → Int → List SidebarItemPosition × Int
  | [], y => ([], y)
  | i :: is, y =>
      let rest := itemsFor is (y + 1)
      (⟨i, y, y + 1⟩ :: rest.1, rest.2)

/-- The workspace loop of `CalculateSidebarLayout`
(render_sidebar.go:78-99): one header line per workspace, then its items,
then a gap line between workspaces (never after the last).  Returns
(items, workspace-header positions, final `currentY`). -/
def layoutCore (l : List Window) :
    List Int → Int → List SidebarItemPosition × List (Int × Int) × Int
  | [], y => ([], [], y)
  | k :: rest, y =>
      let hY := y
      let its := itemsFor (indicesIn l k) (y + 1)
      let y2 := if rest = [] then its.2 else its.2 + 1
      let tail := layoutCore l rest y2
      (its.1 ++ tail.1, (k, hY) :: tail.2.1, tail.2.2)

/-- `CalculateSidebarLayout` (render_sidebar.go:52-102): `currentY`
starts at 3 (border + title + blank). -/
def CalculateSidebarLayout (m : OS) : SidebarLayout :=
  let core := layoutCore m.windows (sortedWorkspaces m.windows) 3
  { width := GetSidebarWidth m
    itemPositions := core.1
    workspaceY := core.2.1 }

/-- The final `currentY` of `CalculateSidebarLayout`'s traversal (the
loop variable after the last workspace; one line past the last laid-out
line). -/
def calculateSidebarFinalY (m : OS) : Int :=
  (layoutCore m.windows (sortedWorkspaces m.windows) 3).2.2

/-- The inner item loop of `FindSidebarItemClicked`
(render_sidebar.go:414-419): scan the items of one workspace, returning
the first index whose row equals `y`, together with the advanced
`currentY` when no row matches. -/
def findItems : List Nat → Int → Int → Option Nat × Int
  | [], cur, _ => (none, cur)
  | i :: is, cur, y =>
      if y = cur then (some i, cur) else findItems is (cur + 1) y

/-- The workspace loop of `FindSidebarItemClicked`
(render_sidebar.go:410-424): skip the header row, scan the item rows,
skip the gap row between workspaces, and return -1 when nothing
matches. -/
def findCore (l : List Window) (y : Int) : List Int → Int → Int
  | [], _ => -1
  | k :: rest, cur =>
      let cur1 := cur + 1
      match findItems (indicesIn l k) cur1 y with
      | (some i, _) => (i : Int)
      | (none, cur2) =>
          let cur3 := if rest = [] then cur2 else cur2 + 1
          findCore l y rest cur3

/-- `FindSidebarItemClicked` (render_sidebar.go:372-427): resolves a
click at `(x, y)` to a window index, or -1. -/
def FindSidebarItemClicked (m : OS) (x y : Int) : Int :=
  if !m.sidebarVisible || m.windows.length = 0 then -1
  else
    let sidebarWidth := GetSidebarWidth m
    if x ≥ sidebarWidth then -1
    else
      let topMargin := if m.dockbarPosition = "top" then m.dockHeight else m.topMargin
      findCore m.windows y (sortedWorkspaces m.windows) (topMargin + 3)

/-! ## Sidebar selection (`SidebarConfirmSelection`,
render_sidebar.go:335-362) -/

/-- `SidebarConfirmSelection` (render_sidebar.go:335-362), parameterized
over the collaborators it calls that live outside the two source files
(`SwitchToWorkspace`, `RestoreWindow`, `TileAllWindows`, `FocusWindow`);
`selectedWindow` is read once, before any of the mutations, matching the
Go pointer read. -/
def SidebarConfirmSelection
    (switchToWorkspace : OS → Int → OS) (restoreWindow : OS → Int → OS)
    (tileAllWindows : OS → OS) (focusWindow : OS → Int → OS)
    (m : OS) : OS :=
  if m.sidebarSelectedIndex < 0 ∨ (m.windows.length : Int) ≤ m.sidebarSelectedIndex then m
  else
    match m.windows.get? m.sidebarSelectedIndex.toNat with
    | none => m
    | some selectedWindow =>
        let m1 :=
          if selectedWindow.workspace ≠ m.currentWorkspace then
            switchToWorkspace m selectedWindow.workspace
          else m
        let m2 :=
          if selectedWindow.minimized then
            let r := restoreWindow m1 m.sidebarSelectedIndex
            if r.autoTiling then tileAllWindows r else r
          else m1
        let m3 := focusWindow m2 m.sidebarSelectedIndex
        { m3 with sidebarVisible := false, sidebarFocused := false,
                  mode := Mode.terminalMode }

/-! ## Graphics passthrough (`GetKittyGraphicsCmd` /
`GetSixelGraphicsCmd`, render.go:171-268) -/

/-- The geometry snapshot `WindowPositionInfo` passed to
`RefreshAllPlacements`. -/
structure WindowPositionInfo where
  windowX : Int
  windowY : Int
  contentOffsetX : Int
  contentOffsetY : Int
  width : Int
  height : Int
  visible : Bool
  scrollbackLen : Int
  scrollOffset : Int
  isBeingManipulated : Bool
  windowZ : Int
  isAltScreen : Bool
  deriving DecidableEq, Repr

/-- The snapshot both passthrough callbacks build for a window
(render.go:186-199 and 235-248): origin, a fixed content inset of 1 cell
on each axis, size, `Visible=true`, scrollback length (0 when the window
has no terminal), scroll offset, manipulation flag, Z and alt-screen
flag. -/
def mkWindowPositionInfo (w : Window) : WindowPositionInfo :=
  let scrollbackLen := match w.terminal with | none => 0 | some n => n
  { windowX := w.x
    windowY := w.y
    contentOffsetX := 1
    contentOffsetY := 1
    width := w.width
    height := w.height
    visible := true
    scrollbackLen := scrollbackLen
    scrollOffset := w.scrollbackOffset
    isBeingManipulated := w.isBeingManipulated
    windowZ := w.z
    isAltScreen := w.isAltScreen }

/-- The entries inserted into the `map[string]*WindowPositionInfo` built
by the Kitty callback (render.go:178-203), in insertion order: one entry
per window of the current workspace that is not minimized. -/
def kittyGeometryEntries (m : OS) : List (String × WindowPositionInfo) :=
  m.windows.foldl
    (fun acc w =>
      if w.workspace == m.currentWorkspace && !w.minimized then
        acc ++ [(w.id, mkWindowPositionInfo w)]
      else acc)
    []

/-- Lookup in the Kitty callback's map: Go map semantics, the last
insertion for a key wins. -/
def kittyGeometryLookup (m : OS) (windowID : String) : Option WindowPositionInfo :=
  ((kittyGeometryEntries m).filter (fun p => p.1 == windowID)).getLast?.map Prod.snd

/-- The entries the Kitty callback's loop body contributes for one
window. -/
def kittyEntriesOf (m : OS) (w : Window) : List (String × WindowPositionInfo) :=
  if w.workspace == m.currentWorkspace && !w.minimized then
    [(w.id, mkWindowPositionInfo w)]
  else []

/-- The scan of the Sixel callback's `for _, w := range m.Windows` loop
(render.go:229-250). -/
def sixelLookupScan (m : OS) (windowID : String) :
    List Window → Option WindowPositionInfo
  | [] => none
  | w :: ws =>
      if w.id == windowID && w.workspace == m.currentWorkspace && !w.minimized then
        some (mkWindowPositionInfo w)
      else sixelLookupScan m windowID ws

/-- The Sixel callback (render.go:228-252): scan `m.Windows` for the
first window with the requested ID that is in the current workspace and
not minimized; `nil` when none qualifies. -/
def sixelGeometryLookup (m : OS) (windowID : String) : Option WindowPositionInfo :=
  sixelLookupScan m windowID m.windows

/-- An effect on the terminal device `/dev/tty`, as performed by the
flush tail of both graphics commands. -/
inductive TtyAction where
  | openWriteOnly
  | writeBlob (data : List Nat)
  | closeHandle
  deriving DecidableEq, Repr

/-- The flush tail of `GetKittyGraphicsCmd` (render.go:206-218): `data`
is the blob returned by `FlushPending` (a collaborator outside the two
source files) and `openOk` whether `os.OpenFile("/dev/tty", O_WRONLY, 0)`
succeeds.  Returns the sequence of device actions performed and the
`tea.Cmd` returned to the caller — `none` (Go `nil`) on every path, so no
error ever propagates. -/
def kittyFlushTail (data : List Nat) (openOk : Bool) :
    List TtyAction × Option Unit :=
  if data.length = 0 then ([], none)
  else if openOk then
    ([TtyAction.openWriteOnly, TtyAction.writeBlob data, TtyAction.closeHandle], none)
  else ([TtyAction.openWriteOnly], none)

/-- The flush tail of `GetSixelGraphicsCmd` (render.go:255-267):
identical code to the Kitty variant. -/
def sixelFlushTail (data : List Nat) (openOk : Bool) :
    List TtyAction × Option Unit :=
  if data.length = 0 then ([], none)
  else if openOk then
    ([TtyAction.openWriteOnly, TtyAction.writeBlob data, TtyAction.closeHandle], none)
  else ([TtyAction.openWriteOnly], none)

/-! ## Concrete states used by the witnesses and the counterexample -/

/-- Base window used to build concrete test states. -/
def baseWindow : Window :=
  { id := "w", x := 0, y := 1, width := 10, height := 5, z := 0, workspace := 0,
    minimized := false, dirty := false, contentDirty := false,
    positionDirty := false, isBeingManipulated := false, isAltScreen := false,
    cachedLayer := none, scrollbackOffset := 0, terminal := none,
    customName := "", title := "" }

/-- Base OS state used to build concrete test states. -/
def baseOS : OS :=
  { windows := [], currentWorkspace := 0, focusedWindow := -1,
    mode := Mode.windowMode, animations := [], topMargin := 1,
    renderWidth := 80, usableHeight := 24, renderHeight := 25,
    sidebarVisible := false, sidebarFocused := false,
    sidebarSelectedIndex := -1, renamingWindow := false, autoTiling := false,
    dockbarPosition := "bottom", dockHeight := 1 }

/-- A concrete stand-in for the external box renderer. -/
def constRenderBox : OS → Nat → Window → Bool → Nat := fun _ _ _ _ => 0

/-- A concrete stand-in for `clipWindowContent`. -/
def idClip : Nat → Int → Int → Int → Int → Nat × Int × Int :=
  fun c x y _ _ => (c, x, y)

/-- A minimized window with a cached layer, for the C4 witness. -/
def c4MinWindow : Window :=
  { baseWindow with
    minimized := true,
    cachedLayer := some { content := 3, x := 0, y := 1, z := 0, id := "w" } }

/-- An off-screen window, for the C4 witness. -/
def c4FarWindow : Window := { baseWindow with x := -100 }

/-- A clean window whose cached layer records its current geometry, for
the C5 witness. -/
def c5Window : Window :=
  { baseWindow with
    x := 4, y := 2, z := 1,
    cachedLayer := some { content := 9, x := 4, y := 2, z := 1, id := "w" } }

/-- An unfocused, partially visible window whose only change is its Z
(cached layer records z = 0, window now has z = 2, `PositionDirty` set),
for the C3 witness. -/
def c3Window : Window :=
  { baseWindow with
    x := -3, y := 2, z := 2, positionDirty := true,
    cachedLayer := some { content := 5, x := -3, y := 2, z := 0, id := "w" } }

/-- A focused window with all dirty flags clear whose cached layer
records a stale Z (cached z = 0, window z = 1). -/
def c1Window : Window :=
  { baseWindow with
    x := 5, y := 2, z := 1,
    cachedLayer := some { content := 7, x := 5, y := 2, z := 0, id := "w" } }

/-- The OS state for the C1 counterexample: `c1Window` is the focused
window of the current workspace. -/
def c1OS : OS := { baseOS with windows := [c1Window], focusedWindow := 0 }

/-- Concrete state for the C2 witness: windows a, b in workspace 1 and c
in workspace 3, sidebar visible. -/
def c2OS : OS :=
  { baseOS with
    windows := [{ baseWindow with workspace := 1 },
                { baseWindow with id := "b", workspace := 1 },
                { baseWindow with id := "c", workspace := 3 }],
    sidebarVisible := true }

/-- Concrete state for the C6 witness: windows a, b in workspace 1 and c
in workspace 3 (spec §8 test 4). -/
def c6OS : OS :=
  { baseOS with
    windows := [{ baseWindow with workspace := 1 },
                { baseWindow with id := "b", workspace := 1 },
                { baseWindow with id := "c", workspace := 3 }] }

/-- State with an out-of-range sidebar selection, for the C10
witness. -/
def c10OS : OS := { c2OS with sidebarSelectedIndex := 5 }

/-- State for the C8 witness: window a qualifies, b is minimized, c is
on another workspace. -/
def c8OS : OS :=
  { baseOS with
    windows := [{ baseWindow with id := "a", terminal := some 42 },
                { baseWindow with id := "b", minimized := true },
                { baseWindow with id := "c", workspace := 2 }] }

/-! ## Helper lemmas for the compositor loop -/

theorem getCanvasWindowsFrom_getElem? (rb : OS → Nat → Window → Bool → Nat)
    (cl : Nat → Int → Int → Int → Int → Nat × Int × Int) (za : Int) (m : OS) :
    ∀ (ws : List Window) (i j : Nat),
      (getCanvasWindowsFrom rb cl za m i ws)[j]? =
        (ws[j]?).map (fun w => windowStep rb cl za m (i + j) w) := by
  intro ws
  induction ws with
  | nil => intro i j; simp [getCanvasWindowsFrom]
  | cons w ws ih =>
      intro i j
      cases j with
      | zero => simp [getCanvasWindowsFrom]
      | succ j =>
          have h : i + (j + 1) = (i + 1) + j := by omega
          simp only [getCanvasWindowsFrom, List.getElem?_cons_succ, ih (i + 1) j, h]

theorem GetCanvasWindows_getElem? (rb : OS → Nat → Window → Bool → Nat)
    (cl : Nat → Int → Int → Int → Int → Nat × Int × Int) (za : Int) (m : OS)
    (i : Nat) :
    (GetCanvasWindows rb cl za m)[i]? =
      (m.windows[i]?).map (fun w => windowStep rb cl za m i w) := by
  simpa [GetCanvasWindows] using
    getCanvasWindowsFrom_getElem? rb cl za m m.windows 0 i

/-- The loop body skips a window that is minimized and not animating, or
culled by the visibility margin, leaving it untouched. -/
theorem windowStep_skip (rb : OS → Nat → Window → Bool → Nat)
    (cl : Nat → Int → Int → Int → Int → Nat × Int × Int) (za : Int)
    (m : OS) (i : Nat) (w : Window)
    (h : (w.minimized = true ∧ isAnimatingB m w = false) ∨
         isVisibleB m w (if isAnimatingB m w then 20 else 5) = false) :
    windowStep rb cl za m i w = (none, w) := by
  rcases h with ⟨hm, ha⟩ | hv
  · simp [windowStep, hm, ha]
  · simp only [windowStep]
    split
    · rfl
    · split
      · rfl
      · simp [hv]

/-- The loop body reuses the cached layer — untouched — whenever the
cache is present and all three dirty flags are clear, for any window
that is in the current workspace and not skipped. -/
theorem windowStep_fastReuse (rb : OS → Nat → Window → Bool → Nat)
    (cl : Nat → Int → Int → Int → Int → Nat × Int × Int) (za : Int)
    (m : OS) (i : Nat) (w : Window) (l : Layer)
    (hws : w.workspace = m.currentWorkspace)
    (hmin : (w.minimized && !isAnimatingB m w) = false)
    (hvis : isVisibleB m w (if isAnimatingB m w then 20 else 5) = true)
    (hd : w.dirty = false) (hcd : w.contentDirty = false)
    (hpd : w.positionDirty = false)
    (hc : w.cachedLayer = some l) :
    windowStep rb cl za m i w = (some l, w) := by
  simp [windowStep, hws, hmin, hvis, hd, hcd, hpd, hc]

/-- The loop body reuses the cached layer — untouched — for any window
that is in the current workspace, not skipped, unfocused, not fully
visible, not content-dirty, not being manipulated, and has a cached
layer, whatever its dirty/position flags and geometry say. -/
theorem windowStep_overrideReuse (rb : OS → Nat → Window → Bool → Nat)
    (cl : Nat → Int → Int → Int → Int → Nat × Int × Int) (za : Int)
    (m : OS) (i : Nat) (w : Window) (l : Layer)
    (hws : w.workspace = m.currentWorkspace)
    (hmin : (w.minimized && !isAnimatingB m w) = false)
    (hvis : isVisibleB m w (if isAnimatingB m w then 20 else 5) = true)
    (hfoc : isFocusedB m i = false)
    (hfull : isFullyVisibleB m w = false)
    (hcd : w.contentDirty = false)
    (hman : w.isBeingManipulated = false)
    (hc : w.cachedLayer = some l) :
    windowStep rb cl za m i w = (some l, w) := by
  cases hd : w.dirty <;> cases hp : w.positionDirty <;>
    simp [windowStep, hws, hmin, hvis, hfoc, hfull, hcd, hman, hc, hd, hp]

/-! ## C4: skip of minimized / culled windows -/

/-- C4: a window that is minimized and not animating, or whose bounding
box does not intersect the viewport expanded by the culling margin (5
cells normally, 20 while an incomplete animation references it), has no
layer emitted by `GetCanvas` and its state — in particular its cached
layer — is left unmodified. -/
theorem getCanvas_skip_emits_nothing
    (rb : OS → Nat → Window → Bool → Nat)
    (cl : Nat → Int → Int → Int → Int → Nat × Int × Int) (za : Int)
    (m : OS) (i : Nat) (w : Window)
    (hw : m.windows[i]? = some w)
    (h : (w.minimized = true ∧ isAnimatingB m w = false) ∨
         isVisibleB m w (if isAnimatingB m w then 20 else 5) = false) :
    (GetCanvasWindows rb cl za m)[i]? = some (none, w) := by
  rw [GetCanvasWindows_getElem? rb cl za m i, hw, Option.map_some',
    windowStep_skip rb cl za m i w h]

/-- Witness for C4: a minimized, non-animating window with a cached
layer is skipped and keeps its cache, and so is an off-screen one. -/
theorem getCanvas_skip_emits_nothing_witness :
    (GetCanvasWindows constRenderBox idClip 1000
        { baseOS with windows := [c4MinWindow] })[0]? = some (none, c4MinWindow) ∧
    (GetCanvasWindows constRenderBox idClip 1000
        { baseOS with windows := [c4FarWindow] })[0]? = some (none, c4FarWindow) := by
  constructor
  · exact getCanvas_skip_emits_nothing constRenderBox idClip 1000
      { baseOS with windows := [c4MinWindow] } 0 c4MinWindow (by decide)
      (Or.inl ⟨by decide, by decide⟩)
  · exact getCanvas_skip_emits_nothing constRenderBox idClip 1000
      { baseOS with windows := [c4FarWindow] } 0 c4FarWindow (by decide)
      (Or.inr (by decide))

/-! ## C5: reference-identical reuse when clean and geometry matches -/

/-- C5: a visible window of the current workspace whose three dirty
flags are clear and whose cached layer records its current geometry has
that very cached layer emitted, and its state — in particular the cached
layer field — is not replaced. -/
theorem getCanvas_clean_reuses_cached_layer
    (rb : OS → Nat → Window → Bool → Nat)
    (cl : Nat → Int → Int → Int → Int → Nat × Int × Int) (za : Int)
    (m : OS) (i : Nat) (w : Window) (l : Layer)
    (hw : m.windows[i]? = some w)
    (hws : w.workspace = m.currentWorkspace)
    (hmin : (w.minimized && !isAnimatingB m w) = false)
    (hvis : isVisibleB m w (if isAnimatingB m w then 20 else 5) = true)
    (hd : w.dirty = false) (hcd : w.contentDirty = false)
    (hpd : w.positionDirty = false)
    (hc : w.cachedLayer = some l)
    (hx : l.x = w.x) (hy : l.y = w.y) (hz : l.z = w.z) :
    (GetCanvasWindows rb cl za m)[i]? = some (some l, w) := by
  rw [GetCanvasWindows_getElem? rb cl za m i, hw, Option.map_some',
    windowStep_fastReuse rb cl za m i w l hws hmin hvis hd hcd hpd hc]

/-- Witness for C5: the emitted layer is exactly the previous frame's
cached layer and the window is unchanged. -/
theorem getCanvas_clean_reuses_cached_layer_witness :
    (GetCanvasWindows constRenderBox idClip 1000
        { baseOS with windows := [c5Window] })[0]? =
      some (some { content := 9, x := 4, y := 2, z := 1, id := "w" }, c5Window) := by
  exact getCanvas_clean_reuses_cached_layer constRenderBox idClip 1000
    { baseOS with windows := [c5Window] } 0 c5Window
    { content := 9, x := 4, y := 2, z := 1, id := "w" }
    (by decide) (by decide) (by decide) (by decide) (by decide) (by decide)
    (by decide) (by decide) (by decide) (by decide) (by decide)

/-! ## C3: reuse override for unfocused, partially visible windows -/

/-- C3: a window of the current workspace that is emitted this frame
(not skipped) and is unfocused, not fully contained in the viewport, not
content-dirty, not being manipulated, and has a cached layer, has that
cached layer emitted unchanged (REUSE) — even when `needsRedraw` is
true, in particular when only its Z changed. -/
theorem getCanvas_reuse_override
    (rb : OS → Nat → Window → Bool → Nat)
    (cl : Nat → Int → Int → Int → Int → Nat × Int × Int) (za : Int)
    (m : OS) (i : Nat) (w : Window) (l : Layer)
    (hw : m.windows[i]? = some w)
    (hws : w.workspace = m.currentWorkspace)
    (hmin : (w.minimized && !isAnimatingB m w) = false)
    (hvis : isVisibleB m w (if isAnimatingB m w then 20 else 5) = true)
    (hfoc : isFocusedB m i = false)
    (hfull : isFullyVisibleB m w = false)
    (hcd : w.contentDirty = false)
    (hman : w.isBeingManipulated = false)
    (hc : w.cachedLayer = some l) :
    (GetCanvasWindows rb cl za m)[i]? = some (some l, w) := by
  rw [GetCanvasWindows_getElem? rb cl za m i, hw, Option.map_some',
    windowStep_overrideReuse rb cl za m i w l hws hmin hvis hfoc hfull hcd hman hc]

/-- Witness for C3: `needsRedraw` is true (position flag set, cached Z
stale) yet the stale cached layer is emitted unchanged. -/
theorem getCanvas_reuse_override_witness :
    needsRedrawB c3Window = true ∧
    (GetCanvasWindows constRenderBox idClip 1000
        { baseOS with windows := [c3Window] })[0]? =
      some (some { content := 5, x := -3, y := 2, z := 0, id := "w" }, c3Window) := by
  refine ⟨by decide, ?_⟩
  exact getCanvas_reuse_override constRenderBox idClip 1000
    { baseOS with windows := [c3Window] } 0 c3Window
    { content := 5, x := -3, y := 2, z := 0, id := "w" }
    (by decide) (by decide) (by decide) (by decide) (by decide) (by decide)
    (by decide) (by decide) (by decide)

/-! ## C1: stale geometry with clear flags — the claim fails on the code

`GetCanvas` (render.go:84) reuses the cached layer whenever it is
non-nil and all three dirty flags are clear, *without* comparing its
recorded geometry to the window's current geometry; the geometry
comparison inside `needsRedraw` (render.go:91-93) is only reached when
the cache is absent or a dirty flag is set — in which case `needsRedraw`
is already true.  So a focused, clean window whose cached layer records
stale (X,Y,Z) gets the stale layer re-emitted, not a redraw. -/

/-- Counterexample to C1 as stated: the window is emitted this frame,
focused, has all three dirty flags clear and a non-nil cached layer
whose recorded Z differs from the window's current Z — yet `GetCanvas`
emits the stale cached layer itself and leaves the window (hence its
cached layer) unchanged, instead of constructing and storing a new
layer. -/
theorem getCanvas_staleGeometry_counterexample :
    c1Window.workspace = c1OS.currentWorkspace ∧
    isFocusedB c1OS 0 = true ∧
    c1Window.minimized = false ∧ isAnimatingB c1OS c1Window = false ∧
    isVisibleB c1OS c1Window 5 = true ∧
    c1Window.dirty = false ∧ c1Window.contentDirty = false ∧
    c1Window.positionDirty = false ∧
    c1Window.cachedLayer = some { content := 7, x := 5, y := 2, z := 0, id := "w" } ∧
    ({ content := 7, x := 5, y := 2, z := 0, id := "w" } : Layer).z ≠ c1Window.z ∧
    (GetCanvasWindows constRenderBox idClip 1000 c1OS)[0]? =
      some (some { content := 7, x := 5, y := 2, z := 0, id := "w" }, c1Window) := by
  decide

/-- C1 amended: for a window emitted this frame that is focused, has all
three dirty flags clear and a non-nil cached layer whose recorded
(X,Y,Z) differs from the window's current (X,Y,Z), `GetCanvas` takes the
flag-only REUSE fast path: it emits the stale cached layer unchanged and
does not construct or store a new layer (the geometry comparison is only
reached when the cache is absent or a dirty flag is set). -/
theorem getCanvas_staleGeometry_reuses_stale
    (rb : OS → Nat → Window → Bool → Nat)
    (cl : Nat → Int → Int → Int → Int → Nat × Int × Int) (za : Int)
    (m : OS) (i : Nat) (w : Window) (l : Layer)
    (hw : m.windows[i]? = some w)
    (hws : w.workspace = m.currentWorkspace)
    (hmin : (w.minimized && !isAnimatingB m w) = false)
    (hvis : isVisibleB m w (if isAnimatingB m w then 20 else 5) = true)
    (hfoc : isFocusedB m i = true)
    (hd : w.dirty = false) (hcd : w.contentDirty = false)
    (hpd : w.positionDirty = false)
    (hc : w.cachedLayer = some l)
    (hgeom : l.x ≠ w.x ∨ l.y ≠ w.y ∨ l.z ≠ w.z) :
    (GetCanvasWindows rb cl za m)[i]? = some (some l, w) := by
  rw [GetCanvasWindows_getElem? rb cl za m i, hw, Option.map_some',
    windowStep_fastReuse rb cl za m i w l hws hmin hvis hd hcd hpd hc]

/-- Witness for the amended C1, at the counterexample state. -/
theorem getCanvas_staleGeometry_reuses_stale_witness :
    (GetCanvasWindows constRenderBox idClip 1000 c1OS)[0]? =
      some (some { content := 7, x := 5, y := 2, z := 0, id := "w" }, c1Window) := by
  exact getCanvas_staleGeometry_reuses_stale constRenderBox idClip 1000
    c1OS 0 c1Window { content := 7, x := 5, y := 2, z := 0, id := "w" }
    (by decide) (by decide) (by decide) (by decide) (by decide) (by decide)
    (by decide) (by decide) (by decide) (Or.inr (Or.inr (by decide)))

/-! ## C7: sidebar width clamp -/

/-- C7: `GetSidebarWidth` returns `int(0.20 * renderWidth)` (float64
semantics, modelled exactly by `intOfFloatMulPointTwo`) clamped to
`[25, 50]`; in particular render width 40 gives 25, 1000 gives 50 and
150 gives 30, and the result always lies in `[25, 50]`. -/
theorem getSidebarWidth_spec :
    GetSidebarWidth { baseOS with renderWidth := 40 } = 25 ∧
    GetSidebarWidth { baseOS with renderWidth := 1000 } = 50 ∧
    GetSidebarWidth { baseOS with renderWidth := 150 } = 30 ∧
    ∀ m : OS,
      GetSidebarWidth m =
        min SidebarMaxWidth (max SidebarMinWidth (intOfFloatMulPointTwo m.renderWidth)) ∧
      SidebarMinWidth ≤ GetSidebarWidth m ∧ GetSidebarWidth m ≤ SidebarMaxWidth := by
  refine ⟨by decide, by decide, by decide, ?_⟩
  intro m
  unfold GetSidebarWidth SidebarMinWidth SidebarMaxWidth
  refine ⟨?_, ?_, ?_⟩ <;> (simp only [SidebarMinWidth, SidebarMaxWidth]; split <;> split <;> omega)

/-! ## C9: device flush behaviour of both graphics commands -/

/-- C9: in both graphics commands, an empty `FlushPending` blob causes
no device action at all; a non-empty blob opens the device write-only,
writes the blob and closes the handle; and on open failure the function
performs no write and still returns normally — the returned `tea.Cmd` is
`nil` on every path, so no error ever reaches the caller. -/
theorem graphicsFlushTail_spec :
    ∀ (data : List Nat) (openOk : Bool),
      (data = [] →
        kittyFlushTail data openOk = ([], none) ∧
        sixelFlushTail data openOk = ([], none)) ∧
      (data ≠ [] → openOk = true →
        kittyFlushTail data openOk =
          ([TtyAction.openWriteOnly, TtyAction.writeBlob data,
            TtyAction.closeHandle], none) ∧
        sixelFlushTail data openOk =
          ([TtyAction.openWriteOnly, TtyAction.writeBlob data,
            TtyAction.closeHandle], none)) ∧
      (data ≠ [] → openOk = false →
        kittyFlushTail data openOk = ([TtyAction.openWriteOnly], none) ∧
        sixelFlushTail data openOk = ([TtyAction.openWriteOnly], none)) ∧
      ((kittyFlushTail data openOk).2 = none ∧
       (sixelFlushTail data openOk).2 = none) := by
  intro data openOk
  cases data <;> cases openOk <;> simp [kittyFlushTail, sixelFlushTail]

/-- Witness for C9: empty blob writes nothing; failed open on a
non-empty blob degrades silently. -/
theorem graphicsFlushTail_spec_witness :
    (kittyFlushTail [] true = ([], none) ∧
     sixelFlushTail [] true = ([], none)) ∧
    (kittyFlushTail [1] false = ([TtyAction.openWriteOnly], none) ∧
     sixelFlushTail [1] false = ([TtyAction.openWriteOnly], none)) :=
  ⟨(graphicsFlushTail_spec [] true).1 rfl,
   (graphicsFlushTail_spec [1] false).2.2.1 (by decide) rfl⟩

/-! ## Helper lemmas: sidebar layout vs hit test -/

theorem itemsFor_snd : ∀ (idxs : List Nat) (y : Int),
    (itemsFor idxs y).2 = y + idxs.length := by
  intro idxs
  induction idxs with
  | nil => intro y; simp [itemsFor]
  | cons i is ih =>
      intro y
      simp only [itemsFor, ih (y + 1), List.length_cons]
      push_cast
      ring

theorem itemsFor_fst_getElem? : ∀ (idxs : List Nat) (y : Int) (j : Nat),
    ((itemsFor idxs y).1)[j]? =
      (idxs[j]?).map (fun i => ⟨i, y + (j : Int), y + (j : Int) + 1⟩) := by
  intro idxs
  induction idxs with
  | nil => intro y j; simp [itemsFor]
  | cons i is ih =>
      intro y j
      cases j with
      | zero => simp [itemsFor]
      | succ j =>
          simp only [itemsFor, List.getElem?_cons_succ]
          rw [ih (y + 1) j]
          cases h : is[j]? with
          | none => simp
          | some i2 =>
              simp only [Option.map_some']
              rw [Option.some_inj]
              have h1 : y + 1 + (j : Int) = y + ((j : Nat) + 1 : Nat) := by
                push_cast; ring
              rw [h1]

theorem itemsFor_mem : ∀ (idxs : List Nat) (y : Int)
    (it : SidebarItemPosition),
    it ∈ (itemsFor idxs y).1 ↔
      ∃ (j : Nat) (i : Nat), idxs[j]? = some i ∧
        it = ⟨i, y + (j : Int), y + (j : Int) + 1⟩ := by
  intro idxs y it
  rw [List.mem_iff_getElem?]
  constructor
  · rintro ⟨j, hj⟩
    rw [itemsFor_fst_getElem?] at hj
    cases h : idxs[j]? with
    | none => rw [h] at hj; simp at hj
    | some i =>
        rw [h] at hj
        simp only [Option.map_some', Option.some_inj] at hj
        exact ⟨j, i, h, hj.symm⟩
  · rintro ⟨j, i, h, rfl⟩
    exact ⟨j, by rw [itemsFor_fst_getElem?, h]; rfl⟩

theorem itemsFor_map_windowIndex : ∀ (idxs : List Nat) (y : Int),
    ((itemsFor idxs y).1).map SidebarItemPosition.windowIndex = idxs := by
  intro idxs
  induction idxs with
  | nil => intro y; simp [itemsFor]
  | cons i is ih => intro y; simp [itemsFor, ih (y + 1)]

theorem findItems_none : ∀ (idxs : List Nat) (cur y : Int),
    (y < cur ∨ cur + idxs.length ≤ y) →
    findItems idxs cur y = (none, cur + idxs.length) := by
  intro idxs
  induction idxs with
  | nil => intro cur y _; simp [findItems]
  | cons i is ih =>
      intro cur y h
      have hne : y ≠ cur := by
        rcases h with h | h
        · omega
        · simp only [List.length_cons] at h
          push_cast at h
          omega
      have h2 : y < cur + 1 ∨ (cur + 1) + (is.length : Int) ≤ y := by
        rcases h with h | h
        · left; omega
        · right
          simp only [List.length_cons] at h
          push_cast at h
          omega
      simp only [findItems, if_neg hne, ih (cur + 1) y h2, List.length_cons]
      refine congrArg (Prod.mk none) ?_
      push_cast
      ring

theorem findItems_hit : ∀ (idxs : List Nat) (cur : Int) (j : Nat) (i : Nat),
    idxs[j]? = some i →
    findItems idxs cur (cur + (j : Int)) = (some i, cur + (j : Int)) := by
  intro idxs
  induction idxs with
  | nil => intro cur j i h; simp at h
  | cons i0 is ih =>
      intro cur j i h
      cases j with
      | zero =>
          simp only [List.getElem?_cons_zero, Option.some_inj] at h
          simp [findItems, h]
      | succ j =>
          simp only [List.getElem?_cons_succ] at h
          have harg : cur + ((j : Nat) + 1 : Nat) = (cur + 1) + (j : Int) := by
            push_cast; ring
          rw [harg]
          have hne : (cur + 1) + (j : Int) ≠ cur := by omega
          simp only [findItems, if_neg hne]
          exact ih (cur + 1) j i h

theorem findItems_none_snd : ∀ (idxs : List Nat) (cur y c : Int),
    findItems idxs cur y = (none, c) → c = cur + idxs.length := by
  intro idxs
  induction idxs with
  | nil =>
      intro cur y c h
      simp [findItems] at h
      simp [h]
  | cons i is ih =>
      intro cur y c h
      simp only [findItems] at h
      by_cases hy : y = cur
      · rw [if_pos hy] at h
        simp at h
      · rw [if_neg hy] at h
        have := ih (cur + 1) y c h
        simp only [List.length_cons]
        push_cast
        omega

theorem findItems_some : ∀ (idxs : List Nat) (cur y c : Int) (i : Nat),
    findItems idxs cur y = (some i, c) →
    ∃ j : Nat, idxs[j]? = some i ∧ y = cur + (j : Int) := by
  intro idxs
  induction idxs with
  | nil => intro cur y c i h; simp [findItems] at h
  | cons i0 is ih =>
      intro cur y c i h
      simp only [findItems] at h
      by_cases hy : y = cur
      · rw [if_pos hy] at h
        simp only [Prod.mk.injEq, Option.some_inj] at h
        exact ⟨0, by simp [h.1], by simp [hy]⟩
      · rw [if_neg hy] at h
        obtain ⟨j, hj, hy2⟩ := ih (cur + 1) y c i h
        exact ⟨j + 1, by simpa using hj, by push_cast; omega⟩

theorem layoutCore_startY_ge (l : List Window) : ∀ (ks : List Int) (y : Int)
    (it : SidebarItemPosition), it ∈ (layoutCore l ks y).1 → y + 1 ≤ it.startY := by
  intro ks
  induction ks with
  | nil => intro y it h; simp [layoutCore] at h
  | cons k rest ih =>
      intro y it h
      simp only [layoutCore, List.mem_append] at h
      rcases h with h | h
      · obtain ⟨j, i, hj, rfl⟩ := (itemsFor_mem _ _ _).1 h
        simp only
        omega
      · set y2 := if rest = [] then (itemsFor (indicesIn l k) (y + 1)).2
          else (itemsFor (indicesIn l k) (y + 1)).2 + 1 with hy2
        have h1 := ih y2 it h
        have h2 : (itemsFor (indicesIn l k) (y + 1)).2 =
            y + 1 + ((indicesIn l k).length : Int) := itemsFor_snd _ _
        have h3 : y + 1 ≤ y2 := by
          rw [hy2]
          split <;> omega
        omega

theorem layoutCore_endY (l : List Window) : ∀ (ks : List Int) (y : Int)
    (it : SidebarItemPosition), it ∈ (layoutCore l ks y).1 →
    it.endY = it.startY + 1 := by
  intro ks
  induction ks with
  | nil => intro y it h; simp [layoutCore] at h
  | cons k rest ih =>
      intro y it h
      simp only [layoutCore, List.mem_append] at h
      rcases h with h | h
      · obtain ⟨j, i, hj, rfl⟩ := (itemsFor_mem _ _ _).1 h
        rfl
      · exact ih _ it h

theorem layoutCore_wsY_map_fst (l : List Window) : ∀ (ks : List Int) (y : Int),
    ((layoutCore l ks y).2.1).map Prod.fst = ks := by
  intro ks
  induction ks with
  | nil => intro y; simp [layoutCore]
  | cons k rest ih => intro y; simp [layoutCore, ih]

theorem layoutCore_map_windowIndex (l : List Window) : ∀ (ks : List Int) (y : Int),
    ((layoutCore l ks y).1).map SidebarItemPosition.windowIndex =
      ks.flatMap (indicesIn l) := by
  intro ks
  induction ks with
  | nil => intro y; simp [layoutCore]
  | cons k rest ih =>
      intro y
      simp [layoutCore, itemsFor_map_windowIndex, ih]

theorem layoutCore_finalY (l : List Window) : ∀ (ks : List Int) (y : Int)
    (p : Int × Int), ((layoutCore l ks y).2.1).getLast? = some p →
    (layoutCore l ks y).2.2 = p.2 + 1 + ((indicesIn l p.1).length : Int) := by
  intro ks
  induction ks with
  | nil => intro y p h; simp [layoutCore] at h
  | cons k rest ih =>
      intro y p h
      by_cases hr : rest = []
      · subst hr
        simp only [layoutCore, List.getLast?_singleton, Option.some_inj] at h
        subst h
        simp only [layoutCore, if_pos rfl]
        exact itemsFor_snd _ _
      · have hy2 : (if rest = [] then (itemsFor (indicesIn l k) (y + 1)).2
            else (itemsFor (indicesIn l k) (y + 1)).2 + 1) =
            (itemsFor (indicesIn l k) (y + 1)).2 + 1 := if_neg hr
        have hne : ((layoutCore l rest
            ((itemsFor (indicesIn l k) (y + 1)).2 + 1)).2.1) ≠ [] := by
          intro hnil
          have hmap := layoutCore_wsY_map_fst l rest
            ((itemsFor (indicesIn l k) (y + 1)).2 + 1)
          rw [hnil] at hmap
          exact hr hmap.symm
        obtain ⟨q, L, hL⟩ := List.exists_cons_of_ne_nil hne
        simp only [layoutCore, hy2] at h ⊢
        rw [hL, List.getLast?_cons_cons] at h
        exact ih _ p (by rw [hL]; exact h)

theorem layoutCore_wsY_head (l : List Window) (k : Int) (rest : List Int)
    (y : Int) : ((layoutCore l (k :: rest) y).2.1).head? = some (k, y) := by
  simp [layoutCore]

theorem findCore_hit (l : List Window) : ∀ (ks : List Int) (cur tm : Int)
    (it : SidebarItemPosition), it ∈ (layoutCore l ks cur).1 →
    findCore l (tm + it.startY) ks (tm + cur) = (it.windowIndex : Int) := by
  intro ks
  induction ks with
  | nil => intro cur tm it h; simp [layoutCore] at h
  | cons k rest ih =>
      intro cur tm it h
      simp only [layoutCore, List.mem_append] at h
      rcases h with h | h
      · obtain ⟨j, i, hj, rfl⟩ := (itemsFor_mem _ _ _).1 h
        simp only [findCore]
        have harg : tm + (cur + 1 + (j : Int)) = (tm + cur + 1) + (j : Int) := by ring
        rw [harg, findItems_hit (indicesIn l k) (tm + cur + 1) j i hj]
      · have hstart := layoutCore_startY_ge l rest _ it h
        have hlen : (itemsFor (indicesIn l k) (cur + 1)).2 =
            cur + 1 + ((indicesIn l k).length : Int) := itemsFor_snd _ _
        have hrest : rest ≠ [] := by
          intro hnil
          rw [hnil] at h
          simp [layoutCore] at h
        rw [if_neg hrest] at h hstart
        simp only [findCore]
        rw [findItems_none (indicesIn l k) (tm + cur + 1) (tm + it.startY)
          (Or.inr (by omega))]
        simp only [if_neg hrest]
        have harg : tm + cur + 1 + ((indicesIn l k).length : Int) + 1 =
            tm + ((itemsFor (indicesIn l k) (cur + 1)).2 + 1) := by omega
        rw [harg]
        exact ih _ tm it h

theorem findCore_sound (l : List Window) : ∀ (ks : List Int) (cur tm y : Int),
    findCore l y ks (tm + cur) = -1 ∨
    ∃ it, it ∈ (layoutCore l ks cur).1 ∧
      findCore l y ks (tm + cur) = (it.windowIndex : Int) ∧
      y = tm + it.startY := by
  intro ks
  induction ks with
  | nil => intro cur tm y; left; rfl
  | cons k rest ih =>
      intro cur tm y
      rcases hfi : findItems (indicesIn l k) (tm + cur + 1) y with ⟨res, c2⟩
      cases res with
      | some i =>
          obtain ⟨j, hj, hy⟩ := findItems_some _ _ _ _ _ hfi
          right
          refine ⟨⟨i, cur + 1 + (j : Int), cur + 1 + (j : Int) + 1⟩, ?_, ?_, ?_⟩
          · simp only [layoutCore, List.mem_append]
            left
            exact (itemsFor_mem _ _ _).2 ⟨j, i, hj, rfl⟩
          · simp only [findCore]
            rw [hfi]
          · simp only
            omega
      | none =>
          have hc2 := findItems_none_snd _ _ _ _ hfi
          have hunf : findCore l y (k :: rest) (tm + cur) =
              findCore l y rest (if rest = [] then c2 else c2 + 1) := by
            simp only [findCore]
            rw [hfi]
          by_cases hrest : rest = []
          · left
            rw [hunf, hrest]
            rfl
          · have hlen : (itemsFor (indicesIn l k) (cur + 1)).2 =
                cur + 1 + ((indicesIn l k).length : Int) := itemsFor_snd _ _
            have harg : (if rest = [] then c2 else c2 + 1) =
                tm + ((itemsFor (indicesIn l k) (cur + 1)).2 + 1) := by
              rw [if_neg hrest]
              omega
            rcases ih ((itemsFor (indicesIn l k) (cur + 1)).2 + 1) tm y with
              hn | ⟨it, hmem, heq, hy⟩
            · left
              rw [hunf, harg]
              exact hn
            · right
              refine ⟨it, ?_, ?_, hy⟩
              · simp only [layoutCore, List.mem_append, if_neg hrest]
                right
                exact hmem
              · rw [hunf, harg]
                exact heq

theorem indicesFrom_mem (k : Int) : ∀ (ws : List Window) (i j : Nat),
    j ∈ indicesFrom k i ws →
    ∃ (d : Nat) (w : Window), j = i + d ∧ ws[d]? = some w ∧ w.workspace = k := by
  intro ws
  induction ws with
  | nil => intro i j h; simp [indicesFrom] at h
  | cons w ws ih =>
      intro i j h
      by_cases hw : w.workspace = k
      · rw [indicesFrom, if_pos hw] at h
        rcases List.mem_cons.1 h with rfl | h2
        · exact ⟨0, w, by omega, by simp, hw⟩
        · obtain ⟨d, w2, hd, he, hk2⟩ := ih (i + 1) j h2
          exact ⟨d + 1, w2, by omega, by simpa using he, hk2⟩
      · rw [indicesFrom, if_neg hw] at h
        obtain ⟨d, w2, hd, he, hk2⟩ := ih (i + 1) j h
        exact ⟨d + 1, w2, by omega, by simpa using he, hk2⟩

theorem indicesIn_mem (l : List Window) (k : Int) (j : Nat)
    (h : j ∈ indicesIn l k) :
    ∃ w : Window, l[j]? = some w ∧ w.workspace = k := by
  obtain ⟨d, w, hd, he, hk⟩ := indicesFrom_mem k l 0 j h
  exact ⟨w, by simpa [hd] using he, hk⟩

theorem indicesFrom_lb (k : Int) : ∀ (ws : List Window) (i j : Nat),
    j ∈ indicesFrom k i ws → i ≤ j := by
  intro ws i j h
  obtain ⟨d, w, hd, _, _⟩ := indicesFrom_mem k ws i j h
  omega

theorem indicesFrom_pairwise (k : Int) : ∀ (ws : List Window) (i : Nat),
    (indicesFrom k i ws).Pairwise (· < ·) := by
  intro ws
  induction ws with
  | nil => intro i; simp [indicesFrom]
  | cons w ws ih =>
      intro i
      by_cases hw : w.workspace = k
      · rw [indicesFrom, if_pos hw]
        refine List.Pairwise.cons ?_ (ih (i + 1))
        intro j hj
        have := indicesFrom_lb k ws (i + 1) j hj
        omega
      · rw [indicesFrom, if_neg hw]
        exact ih (i + 1)

theorem indicesIn_nodup (l : List Window) (k : Int) : (indicesIn l k).Nodup :=
  (indicesFrom_pairwise k l 0).imp (fun h => Nat.ne_of_lt h)

theorem indicesIn_disjoint (l : List Window) (k k2 : Int) (hk : k ≠ k2) :
    List.Disjoint (indicesIn l k) (indicesIn l k2) := by
  intro j h1 h2
  obtain ⟨w1, e1, hw1⟩ := indicesIn_mem l k j h1
  obtain ⟨w2, e2, hw2⟩ := indicesIn_mem l k2 j h2
  rw [e1] at e2
  exact hk (by rw [← hw1, Option.some_inj.1 e2, hw2])

theorem sortedWorkspaces_nodup (l : List Window) :
    (sortedWorkspaces l).Nodup :=
  ((List.perm_insertionSort _ _).nodup_iff).2 (List.nodup_dedup _)

theorem sortedWorkspaces_sorted (l : List Window) :
    (sortedWorkspaces l).Sorted (· < ·) :=
  (List.sorted_insertionSort _ _).lt_of_le (sortedWorkspaces_nodup l)

theorem sortedWorkspaces_mem (l : List Window) (k : Int) :
    k ∈ sortedWorkspaces l ↔ ∃ w ∈ l, w.workspace = k := by
  simp [sortedWorkspaces, List.mem_dedup, eq_comm]

/-- The window indices appearing in the sidebar layout, grouped by
sorted workspace. -/
theorem calculateSidebarLayout_map_windowIndex (m : OS) :
    ((CalculateSidebarLayout m).itemPositions).map
        SidebarItemPosition.windowIndex =
      (sortedWorkspaces m.windows).flatMap (indicesIn m.windows) :=
  layoutCore_map_windowIndex m.windows (sortedWorkspaces m.windows) 3

/-- No window index appears twice among the sidebar's item positions. -/
theorem calculateSidebarLayout_windowIndex_nodup (m : OS) :
    (((CalculateSidebarLayout m).itemPositions).map
        SidebarItemPosition.windowIndex).Nodup := by
  rw [calculateSidebarLayout_map_windowIndex]
  refine List.nodup_flatMap.2 ⟨fun k _ => indicesIn_nodup m.windows k, ?_⟩
  exact (sortedWorkspaces_nodup m.windows).imp
    (fun hk => indicesIn_disjoint m.windows _ _ hk)

/-! ## C2: layout / hit-test round trip -/

/-- With the sidebar visible, a non-empty window list and `x` inside
the sidebar, `FindSidebarItemClicked` reduces to the workspace scan,
started past the top margin (dock height when the dock is on top). -/
theorem findSidebarItemClicked_reduce0 (m : OS) (x : Int)
    (hvis : m.sidebarVisible = true) (hne : m.windows ≠ [])
    (hx : x < GetSidebarWidth m) (y : Int) :
    FindSidebarItemClicked m x y =
      findCore m.windows y (sortedWorkspaces m.windows)
        ((if m.dockbarPosition = "top" then m.dockHeight else m.topMargin) + 3) := by
  have hx2 : ¬(x ≥ GetSidebarWidth m) := not_le.2 hx
  simp only [FindSidebarItemClicked, hvis, Bool.not_true, Bool.false_or,
    if_neg hx2]
  rw [if_neg]
  simp [hne]

/-- Specialization of the reduction when the dock is not on top. -/
theorem findSidebarItemClicked_reduce (m : OS) (x : Int)
    (hvis : m.sidebarVisible = true) (hne : m.windows ≠ [])
    (hdock : m.dockbarPosition ≠ "top") (hx : x < GetSidebarWidth m)
    (y : Int) :
    FindSidebarItemClicked m x y =
      findCore m.windows y (sortedWorkspaces m.windows) (m.topMargin + 3) := by
  rw [findSidebarItemClicked_reduce0 m x hvis hne hx y, if_neg hdock]

/-- C2: for every item position produced by `CalculateSidebarLayout`
(sidebar visible, non-empty window list, dock not docked to the top),
hit-testing any `x` within the sidebar at `topMargin + StartY` returns
exactly that item's window index, and hit-testing `topMargin + EndY`
returns -1 or a different item's window index — never the same one. -/
theorem sidebar_layout_hitTest_roundTrip (m : OS) (x : Int)
    (it : SidebarItemPosition)
    (hvis : m.sidebarVisible = true) (hne : m.windows ≠ [])
    (hdock : m.dockbarPosition ≠ "top")
    (hx0 : 0 ≤ x) (hx : x < GetSidebarWidth m)
    (hit : it ∈ (CalculateSidebarLayout m).itemPositions) :
    FindSidebarItemClicked m x (m.topMargin + it.startY) = (it.windowIndex : Int) ∧
    (FindSidebarItemClicked m x (m.topMargin + it.endY) = -1 ∨
      ∃ it2 ∈ (CalculateSidebarLayout m).itemPositions,
        FindSidebarItemClicked m x (m.topMargin + it.endY) = (it2.windowIndex : Int) ∧
        it2.windowIndex ≠ it.windowIndex) ∧
    FindSidebarItemClicked m x (m.topMargin + it.endY) ≠ (it.windowIndex : Int) := by
  have hitems : (CalculateSidebarLayout m).itemPositions =
      (layoutCore m.windows (sortedWorkspaces m.windows) 3).1 := rfl
  have hmem : it ∈ (layoutCore m.windows (sortedWorkspaces m.windows) 3).1 := by
    rw [← hitems]; exact hit
  have hred := findSidebarItemClicked_reduce m x hvis hne hdock hx
  have hend : it.endY = it.startY + 1 :=
    layoutCore_endY m.windows (sortedWorkspaces m.windows) 3 it hmem
  refine ⟨?_, ?_⟩
  · rw [hred]
    exact findCore_hit m.windows (sortedWorkspaces m.windows) 3 m.topMargin it hmem
  · rcases findCore_sound m.windows (sortedWorkspaces m.windows) 3 m.topMargin
        (m.topMargin + it.endY) with hno | ⟨it2, hmem2, heq2, hy2⟩
    · constructor
      · left
        rw [hred]
        exact hno
      · rw [hred, hno]
        have := Int.natCast_nonneg it.windowIndex
        omega
    · have hsne : it2.startY ≠ it.startY := by omega
      have hine : it2.windowIndex ≠ it.windowIndex := by
        intro hcontra
        refine hsne ?_
        have h2 := List.inj_on_of_nodup_map
          (calculateSidebarLayout_windowIndex_nodup m)
          (hitems ▸ hmem2) (hitems ▸ hmem) hcontra
        rw [h2]
      constructor
      · right
        exact ⟨it2, hitems ▸ hmem2, by rw [hred]; exact heq2, hine⟩
      · rw [hred, heq2]
        intro hcontra
        exact hine (Nat.cast_injective hcontra)

/-- Witness for C2: window c's item (index 2, rows 8–9 of the layout)
hit-tests back to index 2 at its start row and not at its end row. -/
theorem sidebar_layout_hitTest_roundTrip_witness :
    FindSidebarItemClicked c2OS 0 (c2OS.topMargin + (8 : Int)) = ((2 : Nat) : Int) ∧
    (FindSidebarItemClicked c2OS 0 (c2OS.topMargin + (9 : Int)) = -1 ∨
      ∃ it2 ∈ (CalculateSidebarLayout c2OS).itemPositions,
        FindSidebarItemClicked c2OS 0 (c2OS.topMargin + (9 : Int)) = (it2.windowIndex : Int) ∧
        it2.windowIndex ≠ 2) ∧
    FindSidebarItemClicked c2OS 0 (c2OS.topMargin + (9 : Int)) ≠ ((2 : Nat) : Int) :=
  sidebar_layout_hitTest_roundTrip c2OS 0 ⟨2, 8, 9⟩ (by decide) (by decide)
    (by decide) (by decide) (by decide) (by decide)

/-! ## C6: structure of the sidebar layout -/

theorem layoutCore_item_of_wsY (l : List Window) : ∀ (ks : List Int) (y : Int)
    (k hY : Int), (k, hY) ∈ (layoutCore l ks y).2.1 →
    ∀ (j idx : Nat), (indicesIn l k)[j]? = some idx →
    (⟨idx, hY + 1 + (j : Int), hY + 1 + (j : Int) + 1⟩ : SidebarItemPosition) ∈
      (layoutCore l ks y).1 := by
  intro ks
  induction ks with
  | nil => intro y k hY h; simp [layoutCore] at h
  | cons k0 rest ih =>
      intro y k hY h j idx hidx
      simp only [layoutCore, List.mem_append]
      rcases List.mem_cons.1 h with heq | htail
      · rw [Prod.mk.injEq] at heq
        obtain ⟨rfl, rfl⟩ := heq
        left
        exact (itemsFor_mem _ _ _).2 ⟨j, idx, hidx, rfl⟩
      · right
        exact ih _ k hY htail j idx hidx

theorem layoutCore_wsY_chain (l : List Window) : ∀ (ks : List Int) (y : Int),
    ((layoutCore l ks y).2.1).Chain'
      (fun a b => b.2 = a.2 + 1 + ((indicesIn l a.1).length : Int) + 1) := by
  intro ks
  induction ks with
  | nil => intro y; simp [layoutCore]
  | cons k rest ih =>
      intro y
      by_cases hr : rest = []
      · subst hr
        simp [layoutCore]
      · obtain ⟨k2, rest2, rfl⟩ := List.exists_cons_of_ne_nil hr
        have hstep : (layoutCore l (k :: k2 :: rest2) y).2.1 =
            (k, y) :: (layoutCore l (k2 :: rest2)
              ((itemsFor (indicesIn l k) (y + 1)).2 + 1)).2.1 := by
          simp only [layoutCore]
          rw [if_neg hr]
        rw [hstep]
        rw [List.chain'_cons']
        constructor
        · intro p hp
          rw [layoutCore_wsY_head l k2 rest2 _] at hp
          rw [Option.mem_def, Option.some_inj] at hp
          subst hp
          have := itemsFor_snd (indicesIn l k) (y + 1)
          simp only
          omega
        · exact ih _

/-- C6: the sidebar layout places workspace headers in ascending
workspace-ID order; within each workspace the items occupy consecutive
rows in the windows' original list order, starting right after the
workspace's header; consecutive workspaces are separated by exactly one
gap line; and no gap follows the last workspace (the traversal ends
right after its last item). -/
theorem calculateSidebarLayout_structure (m : OS) :
    ((CalculateSidebarLayout m).workspaceY).map Prod.fst =
        sortedWorkspaces m.windows ∧
    (sortedWorkspaces m.windows).Sorted (· < ·) ∧
    ((CalculateSidebarLayout m).itemPositions).map
        SidebarItemPosition.windowIndex =
      (sortedWorkspaces m.windows).flatMap (indicesIn m.windows) ∧
    (∀ (k hY : Int) (j idx : Nat),
      (k, hY) ∈ (CalculateSidebarLayout m).workspaceY →
      (indicesIn m.windows k)[j]? = some idx →
      (⟨idx, hY + 1 + (j : Int), hY + 1 + (j : Int) + 1⟩ : SidebarItemPosition) ∈
        (CalculateSidebarLayout m).itemPositions) ∧
    ((CalculateSidebarLayout m).workspaceY).Chain'
      (fun a b => b.2 = a.2 + 1 + ((indicesIn m.windows a.1).length : Int) + 1) ∧
    (∀ p : Int × Int, ((CalculateSidebarLayout m).workspaceY).getLast? = some p →
      calculateSidebarFinalY m =
        p.2 + 1 + ((indicesIn m.windows p.1).length : Int)) :=
  ⟨layoutCore_wsY_map_fst m.windows (sortedWorkspaces m.windows) 3,
   sortedWorkspaces_sorted m.windows,
   calculateSidebarLayout_map_windowIndex m,
   fun k hY j idx hws hidx =>
     layoutCore_item_of_wsY m.windows (sortedWorkspaces m.windows) 3 k hY hws j idx hidx,
   layoutCore_wsY_chain m.windows (sortedWorkspaces m.windows) 3,
   fun p hp => layoutCore_finalY m.windows (sortedWorkspaces m.windows) 3 p hp⟩

/-- Witness for C6 at the spec's own example {1:[a,b], 3:[c]}: window
b's item occupies the row right after workspace 1's header plus one, and
the traversal ends one gap-free line after window c's single-item
workspace 3. -/
theorem calculateSidebarLayout_structure_witness :
    (⟨1, (3 : Int) + 1 + ((1 : Nat) : Int), (3 : Int) + 1 + ((1 : Nat) : Int) + 1⟩ :
        SidebarItemPosition) ∈ (CalculateSidebarLayout c6OS).itemPositions ∧
    calculateSidebarFinalY c6OS =
      (7 : Int) + 1 + ((indicesIn c6OS.windows 3).length : Int) := by
  constructor
  · exact (calculateSidebarLayout_structure c6OS).2.2.2.1 1 3 1 1
      (by decide) (by decide)
  · exact (calculateSidebarLayout_structure c6OS).2.2.2.2.2 (3, 7) (by decide)

/-! ## C10: defensive no-ops -/

/-- C10: `FindSidebarItemClicked` answers -1 whenever the sidebar is
hidden, the window list is empty, `x` is at or beyond the sidebar width,
or `y` is not one of the layout's window-item rows (headers, workspace
headers and gap lines included); and `SidebarConfirmSelection` with an
out-of-range selection index returns with the state unchanged, whatever
its collaborators do. -/
theorem sidebar_defensive_noOps :
    ∀ (m : OS) (x y : Int),
      (m.sidebarVisible = false → FindSidebarItemClicked m x y = -1) ∧
      (m.windows = [] → FindSidebarItemClicked m x y = -1) ∧
      (GetSidebarWidth m ≤ x → FindSidebarItemClicked m x y = -1) ∧
      ((∀ it ∈ (CalculateSidebarLayout m).itemPositions,
          y ≠ (if m.dockbarPosition = "top" then m.dockHeight else m.topMargin) +
            it.startY) →
        FindSidebarItemClicked m x y = -1) ∧
      (∀ (sw fw : OS → Int → OS) (rw2 : OS → Int → OS) (ta : OS → OS),
        (m.sidebarSelectedIndex < 0 ∨
          (m.windows.length : Int) ≤ m.sidebarSelectedIndex) →
        SidebarConfirmSelection sw rw2 ta fw m = m) := by
  intro m x y
  refine ⟨?_, ?_, ?_, ?_, ?_⟩
  · intro h
    simp [FindSidebarItemClicked, h]
  · intro h
    simp [FindSidebarItemClicked, h]
  · intro h
    simp [FindSidebarItemClicked, h]
  · intro h
    by_cases hvis : m.sidebarVisible = true
    · by_cases hne : m.windows = []
      · simp [FindSidebarItemClicked, hne]
      · by_cases hx : x < GetSidebarWidth m
        · rw [findSidebarItemClicked_reduce0 m x hvis hne hx y]
          rcases findCore_sound m.windows (sortedWorkspaces m.windows) 3
              (if m.dockbarPosition = "top" then m.dockHeight else m.topMargin)
              y with hno | ⟨it, hmem, _, hy⟩
          · exact hno
          · exact absurd hy (h it hmem)
        · simp [FindSidebarItemClicked, not_lt.1 hx]
    · have hfalse : m.sidebarVisible = false := by
        revert hvis
        cases m.sidebarVisible <;> simp
      simp [FindSidebarItemClicked, hfalse]
  · intro sw fw rw2 ta h
    simp only [SidebarConfirmSelection]
    rw [if_pos h]

/-- Witness for C10: a click with the sidebar hidden resolves to no
target; a click on the gap row between the two workspaces of `c2OS`
resolves to no target; confirming an out-of-range selection leaves the
state untouched. -/
theorem sidebar_defensive_noOps_witness :
    FindSidebarItemClicked baseOS 0 0 = -1 ∧
    FindSidebarItemClicked c2OS 0 7 = -1 ∧
    SidebarConfirmSelection (fun s _ => s) (fun s _ => s) (fun s => s)
      (fun s _ => s) c10OS = c10OS := by
  refine ⟨?_, ?_, ?_⟩
  · exact (sidebar_defensive_noOps baseOS 0 0).1 (by decide)
  · exact (sidebar_defensive_noOps c2OS 0 7).2.2.2.1 (by decide)
  · exact (sidebar_defensive_noOps c10OS 0 0).2.2.2.2
      (fun s _ => s) (fun s _ => s) (fun s _ => s) (fun s => s) (by decide)

/-! ## C8: the geometry snapshot both passthroughs receive -/

theorem kittyGeometryEntries_eq (m : OS) :
    kittyGeometryEntries m = m.windows.flatMap (kittyEntriesOf m) := by
  have h : ∀ (ws : List Window) (acc : List (String × WindowPositionInfo)),
      ws.foldl (fun acc w =>
        if w.workspace == m.currentWorkspace && !w.minimized then
          acc ++ [(w.id, mkWindowPositionInfo w)] else acc) acc =
      acc ++ ws.flatMap (kittyEntriesOf m) := by
    intro ws
    induction ws with
    | nil => intro acc; simp
    | cons w0 ls ih =>
        intro acc
        rw [List.foldl_cons, ih, List.flatMap_cons]
        by_cases hq : (w0.workspace == m.currentWorkspace && !w0.minimized) = true
        · rw [if_pos hq, kittyEntriesOf, if_pos hq, List.append_assoc,
            List.singleton_append]
        · rw [if_neg hq, kittyEntriesOf, if_neg hq, List.nil_append]
  simpa [kittyGeometryEntries] using h m.windows []

theorem kittyEntries_key (m : OS) (p : String × WindowPositionInfo)
    (ls : List Window) (hp : p ∈ ls.flatMap (kittyEntriesOf m)) :
    p.1 ∈ ls.map Window.id := by
  rw [List.mem_flatMap] at hp
  obtain ⟨w, hw, hpw⟩ := hp
  rw [kittyEntriesOf] at hpw
  split at hpw
  · rw [List.mem_singleton] at hpw
    subst hpw
    exact List.mem_map.2 ⟨w, hw, rfl⟩
  · simp at hpw

theorem kittyFilter_eq (m : OS) (w : Window) : ∀ (ls : List Window),
    (ls.map Window.id).Nodup → w ∈ ls →
    (ls.flatMap (kittyEntriesOf m)).filter (fun p => p.1 == w.id) =
      kittyEntriesOf m w := by
  intro ls
  induction ls with
  | nil => intro _ h; simp at h
  | cons w0 ls ih =>
      intro hnodup hmem
      rw [List.map_cons, List.nodup_cons] at hnodup
      rw [List.flatMap_cons, List.filter_append]
      rcases List.mem_cons.1 hmem with rfl | hmem2
      · have htail : (ls.flatMap (kittyEntriesOf m)).filter
            (fun p => p.1 == w.id) = [] := by
          rw [List.filter_eq_nil_iff]
          intro p hp hcontra
          rw [beq_iff_eq] at hcontra
          exact hnodup.1 (hcontra ▸ kittyEntries_key m p ls hp)
        rw [htail, List.append_nil, kittyEntriesOf]
        split
        · simp
        · simp
      · have hne : w0.id ≠ w.id := by
          intro hcontra
          exact hnodup.1 (hcontra ▸ List.mem_map.2 ⟨w, hmem2, rfl⟩)
        have hhead : (kittyEntriesOf m w0).filter (fun p => p.1 == w.id) = [] := by
          rw [kittyEntriesOf]
          split
          · simp [hne]
          · simp
        rw [hhead, List.nil_append]
        exact ih hnodup.2 hmem2

theorem kittyGeometryLookup_eq (m : OS) (w : Window)
    (hnodup : (m.windows.map Window.id).Nodup) (hmem : w ∈ m.windows) :
    kittyGeometryLookup m w.id =
      if (w.workspace == m.currentWorkspace && !w.minimized) = true
      then some (mkWindowPositionInfo w) else none := by
  rw [kittyGeometryLookup, kittyGeometryEntries_eq,
    kittyFilter_eq m w m.windows hnodup hmem, kittyEntriesOf]
  split
  · rfl
  · rfl

theorem sixelLookupScan_none (m : OS) (windowID : String) :
    ∀ ls : List Window, windowID ∉ ls.map Window.id →
    sixelLookupScan m windowID ls = none := by
  intro ls
  induction ls with
  | nil => intro _; rfl
  | cons w0 ls ih =>
      intro hnmem
      rw [List.map_cons, List.mem_cons] at hnmem
      push_neg at hnmem
      have hne : (w0.id == windowID) = false := by
        rw [beq_eq_false_iff_ne]
        exact fun hc => hnmem.1 hc.symm
      rw [sixelLookupScan, hne]
      simp only [Bool.false_and, if_false]
      exact ih hnmem.2

theorem sixelGeometryLookup_eq (m : OS) (w : Window)
    (hnodup : (m.windows.map Window.id).Nodup) (hmem : w ∈ m.windows) :
    sixelGeometryLookup m w.id =
      if (w.workspace == m.currentWorkspace && !w.minimized) = true
      then some (mkWindowPositionInfo w) else none := by
  rw [sixelGeometryLookup]
  revert hnodup hmem
  induction m.windows with
  | nil => intro _ h; simp at h
  | cons w0 ls ih =>
      intro hnodup hmem
      rw [List.map_cons, List.nodup_cons] at hnodup
      rcases List.mem_cons.1 hmem with rfl | hmem2
      · by_cases hq : (w.workspace == m.currentWorkspace && !w.minimized) = true
        · rw [if_pos hq, sixelLookupScan]
          rw [if_pos (by simp [hq])]
        · rw [if_neg hq, sixelLookupScan]
          rw [if_neg (by simp [hq])]
          exact sixelLookupScan_none m w.id ls hnodup.1
      · have hne : (w0.id == w.id) = false := by
          rw [beq_eq_false_iff_ne]
          intro hcontra
          exact hnodup.1 (hcontra ▸ List.mem_map.2 ⟨w, hmem2, rfl⟩)
        rw [sixelLookupScan, if_neg (by simp [hne])]
        exact ih hnodup.2 hmem2

/-- C8: with distinct window IDs, both passthrough geometry lookups
supply, for a window of the current workspace that is not minimized, a
snapshot with the window's origin, a content inset of (1,1), its size,
`Visible = true`, its terminal's scrollback length (0 without a
terminal), its scroll offset, manipulation flag, Z and alt-screen flag —
and no snapshot at all (absent map entry / `nil`) for any other
window. -/
theorem graphicsGeometryLookup_spec (m : OS) (w : Window)
    (hnodup : (m.windows.map Window.id).Nodup) (hmem : w ∈ m.windows) :
    (w.workspace = m.currentWorkspace ∧ w.minimized = false →
      kittyGeometryLookup m w.id = some
        { windowX := w.x, windowY := w.y, contentOffsetX := 1,
          contentOffsetY := 1, width := w.width, height := w.height,
          visible := true,
          scrollbackLen := (match w.terminal with | none => 0 | some n => n),
          scrollOffset := w.scrollbackOffset,
          isBeingManipulated := w.isBeingManipulated, windowZ := w.z,
          isAltScreen := w.isAltScreen } ∧
      sixelGeometryLookup m w.id = some
        { windowX := w.x, windowY := w.y, contentOffsetX := 1,
          contentOffsetY := 1, width := w.width, height := w.height,
          visible := true,
          scrollbackLen := (match w.terminal with | none => 0 | some n => n),
          scrollOffset := w.scrollbackOffset,
          isBeingManipulated := w.isBeingManipulated, windowZ := w.z,
          isAltScreen := w.isAltScreen }) ∧
    (¬(w.workspace = m.currentWorkspace ∧ w.minimized = false) →
      kittyGeometryLookup m w.id = none ∧
      sixelGeometryLookup m w.id = none) := by
  have hk := kittyGeometryLookup_eq m w hnodup hmem
  have hs := sixelGeometryLookup_eq m w hnodup hmem
  constructor
  · rintro ⟨h1, h2⟩
    have hq : (w.workspace == m.currentWorkspace && !w.minimized) = true := by
      simp [h1, h2]
    rw [hk, if_pos hq, hs, if_pos hq]
    exact ⟨rfl, rfl⟩
  · intro hnot
    have hq : ¬((w.workspace == m.currentWorkspace && !w.minimized) = true) := by
      intro hc
      simp only [Bool.and_eq_true, beq_iff_eq, Bool.not_eq_true'] at hc
      exact hnot hc
    rw [hk, if_neg hq, hs, if_neg hq]
    exact ⟨rfl, rfl⟩

/-- Witness for C8: window a gets a full snapshot from both lookups;
the minimized window b gets none from either. -/
theorem graphicsGeometryLookup_spec_witness :
    kittyGeometryLookup c8OS "a" = some
      (mkWindowPositionInfo { baseWindow with id := "a", terminal := some 42 }) ∧
    sixelGeometryLookup c8OS "a" = some
      (mkWindowPositionInfo { baseWindow with id := "a", terminal := some 42 }) ∧
    kittyGeometryLookup c8OS "b" = none ∧
    sixelGeometryLookup c8OS "b" = none := by
  have ha := (graphicsGeometryLookup_spec c8OS
    { baseWindow with id := "a", terminal := some 42 }
    (by decide) (by decide)).1 ⟨by decide, by decide⟩
  have hb := (graphicsGeometryLookup_spec c8OS
    { baseWindow with id := "b", minimized := true }
    (by decide) (by decide)).2 (by decide)
  exact ⟨ha.1, ha.2, hb.1, hb.2⟩

end Tuios
